import Mathlib

/-
Verification of analysis_scripts/process_fep_benchmark.py.

The script's `main` collects result files from the immediate subdirectories
of `upper_dir` (via glob patterns), delegates parsing to the external module
`analysis_functions` (modelled here as an abstract collaborator record),
applies a hard-coded de-duplication correction for two named thrombin data
sets, prints a summary, and optionally prints latex tables.

The embedding below models the filesystem as a tree of nodes, the external
module as a record of functions, and a run of `main` as an event trace
together with an optional uncaught Python error and the final filesystem.
-/

namespace FepBenchmark

/-- A node of the filesystem: a plain file or a directory with children. -/
inductive FSNode where
  | file (name : String)
  | dir (name : String) (children : List FSNode)

def FSNode.name : FSNode → String
  | FSNode.file n => n
  | FSNode.dir n _ => n

def FSNode.isDir : FSNode → Bool
  | FSNode.file _ => false
  | FSNode.dir _ _ => true

def FSNode.children : FSNode → List FSNode
  | FSNode.file _ => []
  | FSNode.dir _ ch => ch

/-- Whether a name begins with a dot: glob treats such names as hidden. -/
def startsWithDot (s : String) : Bool :=
  match s.data with
  | [] => false
  | c :: _ => c == '.'

/-- Whether `name` ends with the string `suf`. -/
def endsWithStr (suf name : String) : Bool :=
  List.isSuffixOf suf.data name.data

/-- Python glob pattern `*`: matches any name not beginning with a dot
(glob treats names starting with `.` as hidden and skips them). -/
def globStar (name : String) : Bool :=
  ! startsWithDot name

/-- Python glob pattern `*{ext}`: a non-hidden name ending with `ext`. -/
def globStarSuffix (ext name : String) : Bool :=
  (! startsWithDot name) && endsWithStr ext name

/-- `glob(f'\x7bentry\x7d/*\x7bext\x7d')`: the matching children of a directory at
`path`, as full paths, in listing order. -/
def dirGlob (path : String) (children : List FSNode) (ext : String) : List String :=
  (children.filter (fun c => globStarSuffix ext c.name)).map
    (fun c => path ++ "/" ++ c.name)

/-- `glob(f'\x7bupper_dir\x7d/*')`: the non-hidden entries of the upper directory. -/
def topGlob (root : List FSNode) : List FSNode :=
  root.filter (fun nd => globStar nd.name)

/-- One iteration of the collection loop: `if os.path.isdir(entry):
files.extend(glob(f'\x7bentry\x7d/*\x7bargs.ext\x7d'))`. -/
def collectStep (upperDir ext : String) (acc : List String) (nd : FSNode) : List String :=
  match nd with
  | FSNode.file _ => acc
  | FSNode.dir n ch => acc ++ dirGlob (upperDir ++ "/" ++ n) ch ext

/-- Lines 72-75 of the script: the collection loop over `glob(f'\x7bupper_dir\x7d/*')`. -/
def collectFiles (upperDir : String) (root : List FSNode) (ext : String) : List String :=
  (topGlob root).foldl (collectStep upperDir ext) []

/-- The files one filesystem node contributes to the collection. -/
def nodeGlob (upperDir ext : String) : FSNode → List String
  | FSNode.file _ => []
  | FSNode.dir n ch => dirGlob (upperDir ++ "/" ++ n) ch ext

/-- The `results` dictionary returned by the external parser: the keys the
script touches (`entries`, `number of compounds`) plus all remaining keys,
kept opaque. -/
structure FepResults where
  entries : List String
  number_of_compounds : List Int
  otherKeys : List (String × Int)
deriving Repr, DecidableEq

/-- The external module `analysis_functions`, treated as a collaborator:
the parsers return a `results` dictionary and a `diffs` value (opaque),
the printers produce their own output lines. -/
structure AnalysisFunctions where
  parse_fep_data : List String → FepResults × Int
  parse_fep_data_from_csv : List String → FepResults × Int
  summarize_fep_error : FepResults → List String
  print_latex_table : List String → List String

/-- The `-e` (`--ext`) argument: argparse `choices=['fmp', 'csv']` allows only
these two values when the option is given; when omitted it is Python `None`. -/
inductive ExtArg where
  | fmp
  | csv
  | absent
deriving Repr, DecidableEq

/-- How `args.ext` renders inside an f-string: `None` when omitted. -/
def ExtArg.toStr : ExtArg → String
  | ExtArg.fmp => "fmp"
  | ExtArg.csv => "csv"
  | ExtArg.absent => "None"

/-- Observable events of a run of `main`, in order. `printLine s` is a line
printed by `main` itself; the collaborator calls record the exact argument
each external function receives. -/
inductive Event where
  | collect (files : List String)
  | parseFmpCall (files : List String)
  | parseCsvCall (files : List String)
  | correction (wi ji : Nat)
  | printLine (s : String)
  | summarizeCall (r : FepResults)
  | latexCall (files : List String)
deriving Repr, DecidableEq

/-- Uncaught Python errors `main` can raise. -/
inductive PyErr where
  | nameError (var : String)
  | indexError
  | exception (msg : String)
deriving Repr, DecidableEq

/-- Outcome of a run: the event trace up to normal completion or up to the
uncaught error, and the filesystem after the run. -/
structure RunResult where
  trace : List Event
  error : Option PyErr
  finalFs : List FSNode

/-- The message of the exception raised for an unsupported extension,
with `None` interpolated for an omitted `-e` option. -/
def exceptionMsg : String :=
  "Only \"fmp\" and \"csv\" are accessible file extenstions. You have entered None."

def throm_name_waterset : String := "throm_nozob_hip75_sbmcorr_out"

def throm_name_jacsset : String := "thrombin_core_out"

/-- The scanning loop of lines 88-92: `for i, name in enumerate(...)`,
overwriting the two index variables on every match. `none` models an
unbound Python variable. -/
def scanLoop (w j : String) : List String → Nat → Option Nat × Option Nat → Option Nat × Option Nat
  | [], _, acc => acc
  | n :: rest, i, acc =>
      scanLoop w j rest (i + 1)
        ((if n = w then some i else acc.1), (if n = j then some i else acc.2))

/-- The state of the two index variables after the scanning loop. -/
def scanIndices (entries : List String) : Option Nat × Option Nat :=
  scanLoop throm_name_waterset throm_name_jacsset entries 0 (none, none)

/-- Reference function: the index of the last occurrence of `x` in a list. -/
def lastOcc (x : String) : List String → Option Nat
  | [] => none
  | n :: rest =>
      match lastOcc x rest with
      | some k => some (k + 1)
      | none => if n = x then some 0 else none

/-- Helper mirroring one component of the scanning loop. -/
def lastIdxFrom (x : String) : List String → Nat → Option Nat → Option Nat
  | [], _, acc => acc
  | n :: rest, i, acc => lastIdxFrom x rest (i + 1) (if n = x then some i else acc)

/-- Line 95 of the script, successful case: `results['number of compounds']
[wi] -= results['number of compounds'][ji]`. -/
def correctedR (r : FepResults) (wi ji : Nat) : FepResults :=
  let nc := r.number_of_compounds
  { r with number_of_compounds := nc.set wi (nc.getD wi 0 - nc.getD ji 0) }

/-- Line 95 with Python list-indexing semantics: an index beyond the list
raises `IndexError`, otherwise the single element at `wi` is decremented. -/
def applyCorrection (r : FepResults) (wi ji : Nat) : Except PyErr FepResults :=
  if wi < r.number_of_compounds.length ∧ ji < r.number_of_compounds.length then
    Except.ok (correctedR r wi ji)
  else
    Except.error PyErr.indexError

/-- The summary block, lines 97-100: two header lines, the delegated
`summarize_fep_error` call, and a blank line. -/
def summaryTrace (r : FepResults) : List Event :=
  [Event.printLine "FEP+ benchmark summary",
   Event.printLine "-----------------------",
   Event.summarizeCall r,
   Event.printLine ""]

/-- One latex block, lines 111-114: the subdirectory path, the delegated
table call, and two blank lines. -/
def latexBlockFor (path : String) (fs : List String) : List Event :=
  [Event.printLine path, Event.latexCall fs, Event.printLine "", Event.printLine ""]

/-- One iteration of the latex loop, lines 108-114: nothing for a plain
file (`os.path.isdir` fails) or for a directory with no matching file. -/
def latexNodeEvents (upperDir ext : String) (nd : FSNode) : List Event :=
  match nd with
  | FSNode.file _ => []
  | FSNode.dir n ch =>
      if (dirGlob (upperDir ++ "/" ++ n) ch ext).length ≥ 1 then
        latexBlockFor (upperDir ++ "/" ++ n) (dirGlob (upperDir ++ "/" ++ n) ch ext)
      else []

/-- The latex loop of lines 107-114 over `glob(f'\x7bupper_dir\x7d/*')`. -/
def latexLoop (upperDir ext : String) : List FSNode → List Event
  | [] => []
  | nd :: rest => latexNodeEvents upperDir ext nd ++ latexLoop upperDir ext rest

/-- Lines 102-116: the latex-table section of the trace. -/
def latexSection (upperDir : String) (root : List FSNode) (ext : ExtArg)
    (latexTables : Bool) : List Event :=
  if latexTables = true ∧ ext = ExtArg.fmp then
    [Event.printLine "Individual set summaries",
     Event.printLine "------------------------"]
      ++ latexLoop upperDir (ExtArg.toStr ext) (topGlob root)
  else if latexTables = true ∧ ext ≠ ExtArg.fmp then
    [Event.printLine "Latex summary tables can only printed for FMP results files."]
  else
    []

/-- Lines 85-116: everything after the parse call. Evaluating an unbound
index variable at the guard of line 94 raises `NameError`; Python's `and`
evaluates the waterset variable first. -/
def afterParse (upperDir : String) (root : List FSNode) (ext : ExtArg)
    (latexTables : Bool) (t : List Event) (results : FepResults) : RunResult :=
  match scanIndices results.entries with
  | (none, _) => ⟨t, some (PyErr.nameError "throm_name_waterset_ind"), root⟩
  | (some _, none) => ⟨t, some (PyErr.nameError "throm_name_jacsset_ind"), root⟩
  | (some wi, some ji) =>
      match applyCorrection results wi ji with
      | Except.error e => ⟨t, some e, root⟩
      | Except.ok r2 =>
          ⟨t ++ [Event.correction wi ji] ++ summaryTrace r2
             ++ latexSection upperDir root ext latexTables, none, root⟩

/-- The `results` dictionary produced by the parse dispatch of lines 78-81. -/
def parsedResults (ext : ExtArg) (af : AnalysisFunctions) (files : List String) : FepResults :=
  match ext with
  | ExtArg.fmp => (af.parse_fep_data files).1
  | ExtArg.csv => (af.parse_fep_data_from_csv files).1
  | ExtArg.absent => ⟨[], [], []⟩

/-- The trace event recording which parser was called on which files. -/
def parseEvent (ext : ExtArg) (files : List String) : Event :=
  match ext with
  | ExtArg.fmp => Event.parseFmpCall files
  | ExtArg.csv => Event.parseCsvCall files
  | ExtArg.absent => Event.parseFmpCall files

/-- The whole of `main` (lines 72-116) after argument parsing: file
collection, parse dispatch (raising for an absent extension), the thrombin
correction, summary printing, and the optional latex section. The script
never writes to the filesystem, so the final filesystem is the input one. -/
def mainRun (upperDir : String) (root : List FSNode) (ext : ExtArg)
    (latexTables : Bool) (af : AnalysisFunctions) : RunResult :=
  let files := collectFiles upperDir root (ExtArg.toStr ext)
  match ext with
  | ExtArg.fmp =>
      afterParse upperDir root ExtArg.fmp latexTables
        [Event.collect files, Event.parseFmpCall files] (af.parse_fep_data files).1
  | ExtArg.csv =>
      afterParse upperDir root ExtArg.csv latexTables
        [Event.collect files, Event.parseCsvCall files] (af.parse_fep_data_from_csv files).1
  | ExtArg.absent =>
      ⟨[Event.collect files], some (PyErr.exception exceptionMsg), root⟩

/-- Correction events of a trace. -/
def correctionEvents (t : List Event) : List (Nat × Nat) :=
  t.filterMap (fun e => match e with
    | Event.correction a b => some (a, b)
    | _ => none)

/-- Arguments of the `summarize_fep_error` calls in a trace. -/
def summarizedArgs (t : List Event) : List FepResults :=
  t.filterMap (fun e => match e with
    | Event.summarizeCall r => some r
    | _ => none)

/-- Arguments of the `print_latex_table` calls in a trace. -/
def latexCallArgs (t : List Event) : List (List String) :=
  t.filterMap (fun e => match e with
    | Event.latexCall fs => some fs
    | _ => none)

/-- Arguments of the parser calls in a trace. -/
def parseCallArgs (t : List Event) : List (List String) :=
  t.filterMap (fun e => match e with
    | Event.parseFmpCall fs => some fs
    | Event.parseCsvCall fs => some fs
    | _ => none)

/-- The lines printed by `main` itself (collaborator output aside). -/
def printedLines (t : List Event) : List String :=
  t.filterMap (fun e => match e with
    | Event.printLine s => some s
    | _ => none)

/-- A concrete upper directory: one group with one result file. -/
def rootW : List FSNode := [FSNode.dir "group1" [FSNode.file "sys1_out.fmp"]]

/-- A concrete upper directory whose only group is hidden from glob. -/
def hiddenRoot : List FSNode := [FSNode.dir ".hidden" [FSNode.file "sys_out.fmp"]]

/-- A concrete collaborator: the fmp parser reports both thrombin data sets,
the csv parser reports neither. -/
def afW : AnalysisFunctions :=
  { parse_fep_data := fun _ =>
      (⟨["thrombin_core_out", "alpha", "throm_nozob_hip75_sbmcorr_out"],
        [3, 5, 10], [("rmse", 2)]⟩, 0)
    parse_fep_data_from_csv := fun _ => (⟨["beta"], [1], []⟩, 0)
    summarize_fep_error := fun _ => ["summary line"]
    print_latex_table := fun _ => ["table line"] }

def filesW : List String := collectFiles "up" rootW "fmp"

def rW : FepResults := parsedResults ExtArg.fmp afW filesW

def filesCsvW : List String := collectFiles "up" rootW "csv"

def rCsvW : FepResults := parsedResults ExtArg.csv afW filesCsvW

/-- A concrete collaborator whose csv parser reports a duplicated data-set
name. -/
def afDup : AnalysisFunctions :=
  { parse_fep_data := fun _ => (⟨[], [], []⟩, 0)
    parse_fep_data_from_csv := fun _ =>
      (⟨["throm_nozob_hip75_sbmcorr_out", "thrombin_core_out",
         "throm_nozob_hip75_sbmcorr_out"], [8, 2, 9], []⟩, 0)
    summarize_fep_error := fun _ => []
    print_latex_table := fun _ => [] }

def rDup : FepResults := parsedResults ExtArg.csv afDup filesCsvW

/-! ### Lemmas about the file-collection loop -/

theorem collectStep_eq (u e : String) (acc : List String) (nd : FSNode) :
    collectStep u e acc nd = acc ++ nodeGlob u e nd := by
  cases nd <;> simp [collectStep, nodeGlob]

theorem foldl_collectStep (u e : String) :
    ∀ (nds : List FSNode) (acc : List String),
      nds.foldl (collectStep u e) acc = acc ++ nds.flatMap (nodeGlob u e)
  | [], acc => by simp
  | nd :: rest, acc => by
      rw [List.foldl_cons, collectStep_eq, foldl_collectStep u e rest,
        List.flatMap_cons, List.append_assoc]

theorem collectFiles_eq_flatMap (u : String) (root : List FSNode) (e : String) :
    collectFiles u root e = (topGlob root).flatMap (nodeGlob u e) := by
  rw [collectFiles, foldl_collectStep]
  simp

theorem mem_collectFiles (u e p : String) (root : List FSNode) :
    p ∈ collectFiles u root e ↔
      ∃ n ch, FSNode.dir n ch ∈ root ∧ globStar n = true ∧
        ∃ c ∈ ch, globStarSuffix e c.name = true ∧ p = u ++ "/" ++ n ++ "/" ++ c.name := by
  rw [collectFiles_eq_flatMap]
  simp only [List.mem_flatMap, topGlob, List.mem_filter]
  constructor
  · rintro ⟨nd, ⟨hmem, hstar⟩, hp⟩
    cases nd with
    | file m => simp [nodeGlob] at hp
    | dir n ch =>
        refine ⟨n, ch, hmem, hstar, ?_⟩
        simp only [nodeGlob, dirGlob, List.mem_map, List.mem_filter] at hp
        obtain ⟨c, ⟨hc, hmatch⟩, hpe⟩ := hp
        exact ⟨c, hc, hmatch, hpe.symm⟩
  · rintro ⟨n, ch, hmem, hstar, c, hc, hmatch, hpe⟩
    refine ⟨FSNode.dir n ch, ⟨hmem, hstar⟩, ?_⟩
    simp only [nodeGlob, dirGlob, List.mem_map, List.mem_filter]
    exact ⟨c, ⟨hc, hmatch⟩, hpe.symm⟩

/-! ### Lemmas about the index-scanning loop -/

theorem lastIdxFrom_eq (x : String) :
    ∀ (l : List String) (i : Nat) (a : Option Nat),
      lastIdxFrom x l i a = (lastOcc x l).elim a (fun k => some (i + k))
  | [], i, a => by simp [lastIdxFrom, lastOcc]
  | n :: rest, i, a => by
      rw [lastIdxFrom, lastIdxFrom_eq x rest]
      cases h : lastOcc x rest with
      | some k =>
          simp only [lastOcc, h, Option.elim]
          congr 1
          omega
      | none =>
          simp only [lastOcc, h, Option.elim]
          by_cases hx : n = x <;> simp [hx]

theorem scanLoop_eq (w j : String) :
    ∀ (l : List String) (i : Nat) (aw aj : Option Nat),
      scanLoop w j l i (aw, aj) = (lastIdxFrom w l i aw, lastIdxFrom j l i aj)
  | [], _, _, _ => rfl
  | n :: rest, i, aw, aj => by
      simp only [scanLoop, lastIdxFrom]
      exact scanLoop_eq w j rest (i + 1) _ _

theorem scanIndices_eq (e : List String) :
    scanIndices e = (lastOcc throm_name_waterset e, lastOcc throm_name_jacsset e) := by
  rw [scanIndices, scanLoop_eq, lastIdxFrom_eq, lastIdxFrom_eq]
  cases lastOcc throm_name_waterset e <;> cases lastOcc throm_name_jacsset e <;> simp

theorem lastOcc_eq_none (x : String) (l : List String) :
    lastOcc x l = none ↔ x ∉ l := by
  induction l with
  | nil => simp [lastOcc]
  | cons n rest ih =>
      simp only [lastOcc]
      cases h : lastOcc x rest with
      | some k =>
          have hx : x ∈ rest := by
            by_contra hn
            rw [← ih] at hn
            rw [hn] at h
            exact Option.noConfusion h
          simp [List.mem_cons, hx]
      | none =>
          have hx : x ∉ rest := ih.mp h
          by_cases hnx : n = x
          · simp [hnx, List.mem_cons, hx, eq_comm]
          · simp only [if_neg hnx]
            simp only [List.mem_cons, hx, or_false, true_iff]
            exact fun hc => hnx hc.symm

theorem lastOcc_getElem (x : String) :
    ∀ (l : List String) (k : Nat), lastOcc x l = some k → l[k]? = some x
  | [], k => by intro h; simp [lastOcc] at h
  | n :: rest, k => by
      intro h
      simp only [lastOcc] at h
      cases hr : lastOcc x rest with
      | some m =>
          rw [hr] at h
          simp only [Option.some.injEq] at h
          subst h
          simpa using lastOcc_getElem x rest m hr
      | none =>
          rw [hr] at h
          by_cases hnx : n = x
          · rw [if_pos hnx] at h
            simp only [Option.some.injEq] at h
            subst h
            simp [hnx]
          · simp [hnx] at h

theorem lastOcc_last (x : String) :
    ∀ (l : List String) (k : Nat), lastOcc x l = some k →
      ∀ m, k < m → l[m]? ≠ some x
  | [], k => by intro h; simp [lastOcc] at h
  | n :: rest, k => by
      intro h m hm
      simp only [lastOcc] at h
      cases hr : lastOcc x rest with
      | some j =>
          rw [hr] at h
          simp only [Option.some.injEq] at h
          subst h
          cases m with
          | zero => omega
          | succ m2 =>
              simpa using lastOcc_last x rest j hr m2 (by omega)
      | none =>
          rw [hr] at h
          have hx : x ∉ rest := (lastOcc_eq_none x rest).mp hr
          by_cases hnx : n = x
          · rw [if_pos hnx] at h
            simp only [Option.some.injEq] at h
            subst h
            cases m with
            | zero => omega
            | succ m2 =>
                simp only [List.getElem?_cons_succ]
                intro hc
                rw [List.getElem?_eq_some] at hc
                exact hx (hc.choose_spec ▸ List.getElem_mem hc.choose)
          · simp [hnx] at h

theorem lastOcc_lt_length (x : String) (l : List String) (k : Nat)
    (h : lastOcc x l = some k) : k < l.length := by
  have hg := lastOcc_getElem x l k h
  rw [List.getElem?_eq_some] at hg
  exact hg.1

theorem exists_lastOcc (x : String) (l : List String) (h : x ∈ l) :
    ∃ k, lastOcc x l = some k := by
  cases hl : lastOcc x l with
  | none => exact absurd ((lastOcc_eq_none x l).mp hl) (by simp [h])
  | some k => exact ⟨k, rfl⟩

/-! ### Structural lemmas about a run of main -/

theorem applyCorrection_ok (r : FepResults) (wi ji : Nat)
    (hw : wi < r.number_of_compounds.length) (hj : ji < r.number_of_compounds.length) :
    applyCorrection r wi ji = Except.ok (correctedR r wi ji) := by
  rw [applyCorrection, if_pos ⟨hw, hj⟩]

theorem afterParse_ok (u : String) (root : List FSNode) (ext : ExtArg) (lt : Bool)
    (t : List Event) (r : FepResults) (wi ji : Nat)
    (hscan : scanIndices r.entries = (some wi, some ji))
    (hw : wi < r.number_of_compounds.length) (hj : ji < r.number_of_compounds.length) :
    afterParse u root ext lt t r =
      ⟨t ++ [Event.correction wi ji] ++ summaryTrace (correctedR r wi ji)
         ++ latexSection u root ext lt, none, root⟩ := by
  unfold afterParse
  simp only [hscan]
  rw [applyCorrection_ok r wi ji hw hj]

theorem afterParse_err_w (u : String) (root : List FSNode) (ext : ExtArg) (lt : Bool)
    (t : List Event) (r : FepResults) (o : Option Nat)
    (hscan : scanIndices r.entries = (none, o)) :
    afterParse u root ext lt t r =
      ⟨t, some (PyErr.nameError "throm_name_waterset_ind"), root⟩ := by
  unfold afterParse
  rw [hscan]

theorem afterParse_err_j (u : String) (root : List FSNode) (ext : ExtArg) (lt : Bool)
    (t : List Event) (r : FepResults) (wi : Nat)
    (hscan : scanIndices r.entries = (some wi, none)) :
    afterParse u root ext lt t r =
      ⟨t, some (PyErr.nameError "throm_name_jacsset_ind"), root⟩ := by
  unfold afterParse
  rw [hscan]

theorem mainRun_valid (u : String) (root : List FSNode) (ext : ExtArg) (lt : Bool)
    (af : AnalysisFunctions) (hext : ext = ExtArg.fmp ∨ ext = ExtArg.csv) :
    mainRun u root ext lt af =
      afterParse u root ext lt
        [Event.collect (collectFiles u root (ExtArg.toStr ext)),
         parseEvent ext (collectFiles u root (ExtArg.toStr ext))]
        (parsedResults ext af (collectFiles u root (ExtArg.toStr ext))) := by
  rcases hext with h | h <;> subst h <;> rfl

theorem mainRun_success (u : String) (root : List FSNode) (ext : ExtArg) (lt : Bool)
    (af : AnalysisFunctions) (files : List String) (r : FepResults) (wi ji : Nat)
    (hext : ext = ExtArg.fmp ∨ ext = ExtArg.csv)
    (hfiles : collectFiles u root (ExtArg.toStr ext) = files)
    (hr : parsedResults ext af files = r)
    (hscan : scanIndices r.entries = (some wi, some ji))
    (hw : wi < r.number_of_compounds.length) (hj : ji < r.number_of_compounds.length) :
    mainRun u root ext lt af =
      ⟨[Event.collect files, parseEvent ext files, Event.correction wi ji]
         ++ summaryTrace (correctedR r wi ji) ++ latexSection u root ext lt,
       none, root⟩ := by
  rw [mainRun_valid u root ext lt af hext, hfiles, hr,
    afterParse_ok u root ext lt _ r wi ji hscan hw hj]
  simp

/-! ### The latex loop as a filter and map -/

theorem correctionEvents_append (a b : List Event) :
    correctionEvents (a ++ b) = correctionEvents a ++ correctionEvents b :=
  List.filterMap_append a b _

theorem summarizedArgs_append (a b : List Event) :
    summarizedArgs (a ++ b) = summarizedArgs a ++ summarizedArgs b :=
  List.filterMap_append a b _

theorem latexCallArgs_append (a b : List Event) :
    latexCallArgs (a ++ b) = latexCallArgs a ++ latexCallArgs b :=
  List.filterMap_append a b _

theorem parseCallArgs_append (a b : List Event) :
    parseCallArgs (a ++ b) = parseCallArgs a ++ parseCallArgs b :=
  List.filterMap_append a b _

theorem latexLoop_eq (u e : String) :
    ∀ (nds : List FSNode),
      latexLoop u e nds =
        (nds.filter (fun nd => decide (nodeGlob u e nd ≠ []))).flatMap
          (fun nd => latexBlockFor (u ++ "/" ++ nd.name) (nodeGlob u e nd))
  | [] => rfl
  | nd :: rest => by
      rw [latexLoop, latexLoop_eq u e rest, List.filter_cons]
      cases nd with
      | file m =>
          simp [latexNodeEvents, nodeGlob]
      | dir n ch =>
          by_cases hfs : dirGlob (u ++ "/" ++ n) ch e = []
          · simp [latexNodeEvents, nodeGlob, hfs]
          · have hlen : (dirGlob (u ++ "/" ++ n) ch e).length ≥ 1 := by
              have := List.length_pos.mpr hfs
              omega
            simp [latexNodeEvents, nodeGlob, hfs, hlen, FSNode.name]

theorem correctionEvents_latexNode (u e : String) (nd : FSNode) :
    correctionEvents (latexNodeEvents u e nd) = [] := by
  cases nd with
  | file m => rfl
  | dir n ch =>
      simp only [latexNodeEvents]
      split <;> rfl

theorem summarizedArgs_latexNode (u e : String) (nd : FSNode) :
    summarizedArgs (latexNodeEvents u e nd) = [] := by
  cases nd with
  | file m => rfl
  | dir n ch =>
      simp only [latexNodeEvents]
      split <;> rfl

theorem correctionEvents_latexLoop (u e : String) :
    ∀ (nds : List FSNode), correctionEvents (latexLoop u e nds) = []
  | [] => rfl
  | nd :: rest => by
      rw [latexLoop, correctionEvents_append, correctionEvents_latexNode,
        correctionEvents_latexLoop u e rest]
      rfl

theorem summarizedArgs_latexLoop (u e : String) :
    ∀ (nds : List FSNode), summarizedArgs (latexLoop u e nds) = []
  | [] => rfl
  | nd :: rest => by
      rw [latexLoop, summarizedArgs_append, summarizedArgs_latexNode,
        summarizedArgs_latexLoop u e rest]
      rfl

theorem latexCallArgs_latexLoop (u e : String) :
    ∀ (nds : List FSNode),
      latexCallArgs (latexLoop u e nds) =
        (nds.filter (fun nd => decide (nodeGlob u e nd ≠ []))).map (nodeGlob u e)
  | [] => rfl
  | nd :: rest => by
      rw [latexLoop, latexCallArgs_append, latexCallArgs_latexLoop u e rest,
        List.filter_cons]
      cases nd with
      | file m => simp [latexNodeEvents, nodeGlob, latexCallArgs]
      | dir n ch =>
          by_cases hfs : dirGlob (u ++ "/" ++ n) ch e = []
          · simp [latexNodeEvents, nodeGlob, hfs, latexCallArgs]
          · have hlen : (dirGlob (u ++ "/" ++ n) ch e).length ≥ 1 := by
              have := List.length_pos.mpr hfs
              omega
            simp [latexNodeEvents, nodeGlob, hfs, hlen, latexBlockFor, latexCallArgs]

theorem printedLines_append (a b : List Event) :
    printedLines (a ++ b) = printedLines a ++ printedLines b :=
  List.filterMap_append a b _

theorem parseCallArgs_latexNode (u e : String) (nd : FSNode) :
    parseCallArgs (latexNodeEvents u e nd) = [] := by
  cases nd with
  | file m => rfl
  | dir n ch =>
      simp only [latexNodeEvents]
      split <;> rfl

theorem parseCallArgs_latexLoop (u e : String) :
    ∀ (nds : List FSNode), parseCallArgs (latexLoop u e nds) = []
  | [] => rfl
  | nd :: rest => by
      rw [latexLoop, parseCallArgs_append, parseCallArgs_latexNode,
        parseCallArgs_latexLoop u e rest]
      rfl

/-! ### Lemmas about the latex section of lines 102-116 -/

theorem latexSection_on (u : String) (root : List FSNode) :
    latexSection u root ExtArg.fmp true =
      [Event.printLine "Individual set summaries",
       Event.printLine "------------------------"]
        ++ latexLoop u "fmp" (topGlob root) := by
  unfold latexSection
  rw [if_pos ⟨rfl, rfl⟩]
  rfl

theorem latexSection_notice (u : String) (root : List FSNode) (ext : ExtArg)
    (h : ext ≠ ExtArg.fmp) :
    latexSection u root ext true =
      [Event.printLine "Latex summary tables can only printed for FMP results files."] := by
  unfold latexSection
  rw [if_neg (fun hc => h hc.2), if_pos ⟨rfl, h⟩]

theorem latexSection_off (u : String) (root : List FSNode) (ext : ExtArg) :
    latexSection u root ext false = [] := by
  unfold latexSection
  rw [if_neg (fun hc => Bool.false_ne_true hc.1),
    if_neg (fun hc => Bool.false_ne_true hc.1)]

theorem correctionEvents_latexSection (u : String) (root : List FSNode)
    (ext : ExtArg) (lt : Bool) :
    correctionEvents (latexSection u root ext lt) = [] := by
  unfold latexSection
  split_ifs
  · rw [correctionEvents_append, correctionEvents_latexLoop]
    rfl
  · rfl
  · rfl

theorem summarizedArgs_latexSection (u : String) (root : List FSNode)
    (ext : ExtArg) (lt : Bool) :
    summarizedArgs (latexSection u root ext lt) = [] := by
  unfold latexSection
  split_ifs
  · rw [summarizedArgs_append, summarizedArgs_latexLoop]
    rfl
  · rfl
  · rfl

theorem parseCallArgs_latexSection (u : String) (root : List FSNode)
    (ext : ExtArg) (lt : Bool) :
    parseCallArgs (latexSection u root ext lt) = [] := by
  unfold latexSection
  split_ifs
  · rw [parseCallArgs_append, parseCallArgs_latexLoop]
    rfl
  · rfl
  · rfl

theorem afterParse_finalFs (u : String) (root : List FSNode) (ext : ExtArg)
    (lt : Bool) (t : List Event) (r : FepResults) :
    (afterParse u root ext lt t r).finalFs = root := by
  unfold afterParse
  split
  · rfl
  · rfl
  · split <;> rfl

theorem parseCallArgs_afterParse (u : String) (root : List FSNode) (ext : ExtArg)
    (lt : Bool) (t : List Event) (r : FepResults) :
    parseCallArgs (afterParse u root ext lt t r).trace = parseCallArgs t := by
  unfold afterParse
  split
  · rfl
  · rfl
  · split
    · rfl
    · simp only [parseCallArgs_append, parseCallArgs_latexSection]
      rw [show parseCallArgs (summaryTrace _) = [] from rfl]
      simp [parseCallArgs]

theorem summarizedArgs_cons_start (ext : ExtArg) (fs : List String) (rest : List Event) :
    summarizedArgs (Event.collect fs :: parseEvent ext fs :: rest) = summarizedArgs rest := by
  cases ext <;> rfl

theorem printedLines_cons_start (ext : ExtArg) (fs : List String) (rest : List Event) :
    printedLines (Event.collect fs :: parseEvent ext fs :: rest) = printedLines rest := by
  cases ext <;> rfl

theorem correctionEvents_cons_start (ext : ExtArg) (fs : List String) (rest : List Event) :
    correctionEvents (Event.collect fs :: parseEvent ext fs :: rest) =
      correctionEvents rest := by
  cases ext <;> rfl

theorem latexCallArgs_cons_start (ext : ExtArg) (fs : List String) (rest : List Event) :
    latexCallArgs (Event.collect fs :: parseEvent ext fs :: rest) = latexCallArgs rest := by
  cases ext <;> rfl

theorem parseCallArgs_startTrace (ext : ExtArg) (fs : List String) :
    parseCallArgs [Event.collect fs, parseEvent ext fs] = [fs] := by
  cases ext <;> rfl

theorem successCore (u : String) (root : List FSNode) (ext : ExtArg)
    (lt : Bool) (af : AnalysisFunctions) (files : List String) (r : FepResults)
    (hext : ext = ExtArg.fmp ∨ ext = ExtArg.csv)
    (hfiles : collectFiles u root (ExtArg.toStr ext) = files)
    (hr : parsedResults ext af files = r)
    (hw : throm_name_waterset ∈ r.entries)
    (hj : throm_name_jacsset ∈ r.entries)
    (hlen : r.entries.length ≤ r.number_of_compounds.length) :
    ∃ wi ji,
      lastOcc throm_name_waterset r.entries = some wi ∧
      lastOcc throm_name_jacsset r.entries = some ji ∧
      scanIndices r.entries = (some wi, some ji) ∧
      wi < r.number_of_compounds.length ∧
      ji < r.number_of_compounds.length ∧
      mainRun u root ext lt af =
        ⟨[Event.collect files, parseEvent ext files, Event.correction wi ji]
           ++ summaryTrace (correctedR r wi ji) ++ latexSection u root ext lt,
         none, root⟩ := by
  obtain ⟨wi, hwi⟩ := exists_lastOcc _ _ hw
  obtain ⟨ji, hji⟩ := exists_lastOcc _ _ hj
  have hscan : scanIndices r.entries = (some wi, some ji) := by
    rw [scanIndices_eq, hwi, hji]
  have hwlt : wi < r.number_of_compounds.length :=
    lt_of_lt_of_le (lastOcc_lt_length _ _ _ hwi) hlen
  have hjlt : ji < r.number_of_compounds.length :=
    lt_of_lt_of_le (lastOcc_lt_length _ _ _ hji) hlen
  exact ⟨wi, ji, hwi, hji, hscan, hwlt, hjlt,
    mainRun_success u root ext lt af files r wi ji hext hfiles hr hscan hwlt hjlt⟩

theorem successTrace (u : String) (root : List FSNode) (ext : ExtArg)
    (lt : Bool) (af : AnalysisFunctions) (files : List String) (r : FepResults)
    (wi ji : Nat)
    (hmain : mainRun u root ext lt af =
      ⟨[Event.collect files, parseEvent ext files, Event.correction wi ji]
         ++ summaryTrace (correctedR r wi ji) ++ latexSection u root ext lt,
       none, root⟩) :
    (mainRun u root ext lt af).trace =
      Event.collect files :: parseEvent ext files ::
        ([Event.correction wi ji,
          Event.printLine "FEP+ benchmark summary",
          Event.printLine "-----------------------",
          Event.summarizeCall (correctedR r wi ji),
          Event.printLine ""]
           ++ latexSection u root ext lt) := by
  rw [hmain]
  rfl

/-! ### The claims -/

/-- C8: a run of main never creates, writes or deletes any file or
directory: the filesystem after the run is the filesystem before it, for
every input, every flag combination and every collaborator; the run's only
effects are the events of the trace. -/
theorem mainRun_filesystem_unchanged (u : String) (root : List FSNode)
    (ext : ExtArg) (lt : Bool) (af : AnalysisFunctions) :
    (mainRun u root ext lt af).finalFs = root := by
  cases ext with
  | fmp => exact afterParse_finalFs u root ExtArg.fmp lt _ _
  | csv => exact afterParse_finalFs u root ExtArg.csv lt _ _
  | absent => rfl

/-- C9: when the `-e` option is omitted, main first performs file collection
with the literal glob suffix `None` (the f-string rendering of Python
`None`) and then raises the exception `Only "fmp" and "csv" are accessible
file extenstions. You have entered None.`, before any parse call, any
correction and any printing. -/
theorem mainRun_absent_ext (u : String) (root : List FSNode) (lt : Bool)
    (af : AnalysisFunctions) :
    mainRun u root ExtArg.absent lt af =
      ⟨[Event.collect (collectFiles u root "None")],
       some (PyErr.exception
         "Only \"fmp\" and \"csv\" are accessible file extenstions. You have entered None."),
       root⟩ ∧
    parseCallArgs (mainRun u root ExtArg.absent lt af).trace = [] ∧
    correctionEvents (mainRun u root ExtArg.absent lt af).trace = [] ∧
    printedLines (mainRun u root ExtArg.absent lt af).trace = [] :=
  ⟨rfl, rfl, rfl, rfl⟩

/-- C5: main's steps happen in one fixed sequential order: file collection,
then the delegated parse call, then the thrombin correction, then the
summary printing — whose `summarize_fep_error` argument is the parser's
output already modified by the correction — then the latex section. -/
theorem mainRun_sequential (u : String) (root : List FSNode) (ext : ExtArg)
    (lt : Bool) (af : AnalysisFunctions) (files : List String) (r : FepResults)
    (hext : ext = ExtArg.fmp ∨ ext = ExtArg.csv)
    (hfiles : collectFiles u root (ExtArg.toStr ext) = files)
    (hr : parsedResults ext af files = r)
    (hw : throm_name_waterset ∈ r.entries)
    (hj : throm_name_jacsset ∈ r.entries)
    (hlen : r.entries.length ≤ r.number_of_compounds.length) :
    ∃ wi ji,
      scanIndices r.entries = (some wi, some ji) ∧
      mainRun u root ext lt af =
        ⟨[Event.collect files, parseEvent ext files, Event.correction wi ji,
          Event.printLine "FEP+ benchmark summary",
          Event.printLine "-----------------------",
          Event.summarizeCall (correctedR r wi ji),
          Event.printLine ""]
           ++ latexSection u root ext lt,
         none, root⟩ ∧
      summarizedArgs (mainRun u root ext lt af).trace = [correctedR r wi ji] := by
  obtain ⟨wi, hwi⟩ := exists_lastOcc _ _ hw
  obtain ⟨ji, hji⟩ := exists_lastOcc _ _ hj
  have hscan : scanIndices r.entries = (some wi, some ji) := by
    rw [scanIndices_eq, hwi, hji]
  have hwlt : wi < r.number_of_compounds.length :=
    lt_of_lt_of_le (lastOcc_lt_length _ _ _ hwi) hlen
  have hjlt : ji < r.number_of_compounds.length :=
    lt_of_lt_of_le (lastOcc_lt_length _ _ _ hji) hlen
  have hmain := mainRun_success u root ext lt af files r wi ji hext hfiles hr hscan hwlt hjlt
  have htr : (mainRun u root ext lt af).trace =
      Event.collect files :: parseEvent ext files ::
        ([Event.correction wi ji,
          Event.printLine "FEP+ benchmark summary",
          Event.printLine "-----------------------",
          Event.summarizeCall (correctedR r wi ji),
          Event.printLine ""]
           ++ latexSection u root ext lt) := by
    rw [hmain]
    rfl
  refine ⟨wi, ji, hscan, hmain, ?_⟩
  rw [htr, summarizedArgs_cons_start, summarizedArgs_append, summarizedArgs_latexSection]
  rfl

/-- Closed witness for mainRun_sequential at a concrete input. -/
theorem mainRun_sequential_w :
    (ExtArg.fmp = ExtArg.fmp ∨ ExtArg.fmp = ExtArg.csv) ∧
    collectFiles "up" rootW (ExtArg.toStr ExtArg.fmp) = filesW ∧
    parsedResults ExtArg.fmp afW filesW = rW ∧
    throm_name_waterset ∈ rW.entries ∧
    throm_name_jacsset ∈ rW.entries ∧
    rW.entries.length ≤ rW.number_of_compounds.length ∧
    (∃ wi ji,
      scanIndices rW.entries = (some wi, some ji) ∧
      mainRun "up" rootW ExtArg.fmp false afW =
        ⟨[Event.collect filesW, parseEvent ExtArg.fmp filesW, Event.correction wi ji,
          Event.printLine "FEP+ benchmark summary",
          Event.printLine "-----------------------",
          Event.summarizeCall (correctedR rW wi ji),
          Event.printLine ""]
           ++ latexSection "up" rootW ExtArg.fmp false,
         none, rootW⟩ ∧
      summarizedArgs (mainRun "up" rootW ExtArg.fmp false afW).trace =
        [correctedR rW wi ji]) :=
  ⟨Or.inl rfl, rfl, rfl, by decide, by decide, by decide,
    mainRun_sequential "up" rootW ExtArg.fmp false afW filesW rW
      (Or.inl rfl) rfl rfl (by decide) (by decide) (by decide)⟩

/-- C1: whenever the parser's output lists both thrombin data sets among
`entries`, main applies exactly one correction before printing the summary:
the compound count at the water-displacement index is decreased by the
count at the JACS index, and this subtraction happens exactly once per run. -/
theorem mainRun_correction_once (u : String) (root : List FSNode) (ext : ExtArg)
    (lt : Bool) (af : AnalysisFunctions) (files : List String) (r : FepResults)
    (hext : ext = ExtArg.fmp ∨ ext = ExtArg.csv)
    (hfiles : collectFiles u root (ExtArg.toStr ext) = files)
    (hr : parsedResults ext af files = r)
    (hw : throm_name_waterset ∈ r.entries)
    (hj : throm_name_jacsset ∈ r.entries)
    (hlen : r.entries.length ≤ r.number_of_compounds.length) :
    ∃ wi ji,
      scanIndices r.entries = (some wi, some ji) ∧
      correctionEvents (mainRun u root ext lt af).trace = [(wi, ji)] ∧
      summarizedArgs (mainRun u root ext lt af).trace = [correctedR r wi ji] ∧
      (correctedR r wi ji).number_of_compounds =
        r.number_of_compounds.set wi
          (r.number_of_compounds.getD wi 0 - r.number_of_compounds.getD ji 0) := by
  obtain ⟨wi, ji, hwi, hji, hscan, hwlt, hjlt, hmain⟩ :=
    successCore u root ext lt af files r hext hfiles hr hw hj hlen
  have htr := successTrace u root ext lt af files r wi ji hmain
  refine ⟨wi, ji, hscan, ?_, ?_, rfl⟩
  · rw [htr, correctionEvents_cons_start, correctionEvents_append,
      correctionEvents_latexSection]
    rfl
  · rw [htr, summarizedArgs_cons_start, summarizedArgs_append,
      summarizedArgs_latexSection]
    rfl

/-- Closed witness for mainRun_correction_once at a concrete input. -/
theorem mainRun_correction_once_w :
    (ExtArg.fmp = ExtArg.fmp ∨ ExtArg.fmp = ExtArg.csv) ∧
    collectFiles "up" rootW (ExtArg.toStr ExtArg.fmp) = filesW ∧
    parsedResults ExtArg.fmp afW filesW = rW ∧
    throm_name_waterset ∈ rW.entries ∧
    throm_name_jacsset ∈ rW.entries ∧
    rW.entries.length ≤ rW.number_of_compounds.length ∧
    (∃ wi ji,
      scanIndices rW.entries = (some wi, some ji) ∧
      correctionEvents (mainRun "up" rootW ExtArg.fmp false afW).trace = [(wi, ji)] ∧
      summarizedArgs (mainRun "up" rootW ExtArg.fmp false afW).trace =
        [correctedR rW wi ji] ∧
      (correctedR rW wi ji).number_of_compounds =
        rW.number_of_compounds.set wi
          (rW.number_of_compounds.getD wi 0 - rW.number_of_compounds.getD ji 0)) :=
  ⟨Or.inl rfl, rfl, rfl, by decide, by decide, by decide,
    mainRun_correction_once "up" rootW ExtArg.fmp false afW filesW rW
      (Or.inl rfl) rfl rfl (by decide) (by decide) (by decide)⟩

/-- C4: the correction modifies only the single compound count at the
water-displacement index: every other element of `number of compounds`,
the whole of `entries`, and every other key of the results dictionary are
identical before and after the correction. -/
theorem mainRun_correction_frame (u : String) (root : List FSNode) (ext : ExtArg)
    (lt : Bool) (af : AnalysisFunctions) (files : List String) (r : FepResults)
    (hext : ext = ExtArg.fmp ∨ ext = ExtArg.csv)
    (hfiles : collectFiles u root (ExtArg.toStr ext) = files)
    (hr : parsedResults ext af files = r)
    (hw : throm_name_waterset ∈ r.entries)
    (hj : throm_name_jacsset ∈ r.entries)
    (hlen : r.entries.length ≤ r.number_of_compounds.length) :
    ∃ wi ji,
      scanIndices r.entries = (some wi, some ji) ∧
      summarizedArgs (mainRun u root ext lt af).trace = [correctedR r wi ji] ∧
      (correctedR r wi ji).entries = r.entries ∧
      (correctedR r wi ji).otherKeys = r.otherKeys ∧
      (correctedR r wi ji).number_of_compounds.length =
        r.number_of_compounds.length ∧
      (∀ k, k ≠ wi → (correctedR r wi ji).number_of_compounds[k]? =
        r.number_of_compounds[k]?) ∧
      (correctedR r wi ji).number_of_compounds[wi]? =
        some (r.number_of_compounds.getD wi 0 - r.number_of_compounds.getD ji 0) := by
  obtain ⟨wi, ji, hwi, hji, hscan, hwlt, hjlt, hmain⟩ :=
    successCore u root ext lt af files r hext hfiles hr hw hj hlen
  have htr := successTrace u root ext lt af files r wi ji hmain
  refine ⟨wi, ji, hscan, ?_, rfl, rfl, ?_, ?_, ?_⟩
  · rw [htr, summarizedArgs_cons_start, summarizedArgs_append,
      summarizedArgs_latexSection]
    rfl
  · exact List.length_set _ _ _
  · intro k hk
    exact List.getElem?_set_ne (Ne.symm hk)
  · exact List.getElem?_set_eq_of_lt _ hwlt

/-- Closed witness for mainRun_correction_frame at a concrete input. -/
theorem mainRun_correction_frame_w :
    (ExtArg.fmp = ExtArg.fmp ∨ ExtArg.fmp = ExtArg.csv) ∧
    collectFiles "up" rootW (ExtArg.toStr ExtArg.fmp) = filesW ∧
    parsedResults ExtArg.fmp afW filesW = rW ∧
    throm_name_waterset ∈ rW.entries ∧
    throm_name_jacsset ∈ rW.entries ∧
    rW.entries.length ≤ rW.number_of_compounds.length ∧
    (∃ wi ji,
      scanIndices rW.entries = (some wi, some ji) ∧
      summarizedArgs (mainRun "up" rootW ExtArg.fmp false afW).trace =
        [correctedR rW wi ji] ∧
      (correctedR rW wi ji).entries = rW.entries ∧
      (correctedR rW wi ji).otherKeys = rW.otherKeys ∧
      (correctedR rW wi ji).number_of_compounds.length =
        rW.number_of_compounds.length ∧
      (∀ k, k ≠ wi → (correctedR rW wi ji).number_of_compounds[k]? =
        rW.number_of_compounds[k]?) ∧
      (correctedR rW wi ji).number_of_compounds[wi]? =
        some (rW.number_of_compounds.getD wi 0 - rW.number_of_compounds.getD ji 0)) :=
  ⟨Or.inl rfl, rfl, rfl, by decide, by decide, by decide,
    mainRun_correction_frame "up" rootW ExtArg.fmp false afW filesW rW
      (Or.inl rfl) rfl rfl (by decide) (by decide) (by decide)⟩

/-- C10: the scanning loop overwrites the index variables on every match,
so the correction uses the index of the last occurrence of each data-set
name: the recorded indices point at the two names and no later position
holds either name. -/
theorem mainRun_last_occurrence (u : String) (root : List FSNode) (ext : ExtArg)
    (lt : Bool) (af : AnalysisFunctions) (files : List String) (r : FepResults)
    (hext : ext = ExtArg.fmp ∨ ext = ExtArg.csv)
    (hfiles : collectFiles u root (ExtArg.toStr ext) = files)
    (hr : parsedResults ext af files = r)
    (hw : throm_name_waterset ∈ r.entries)
    (hj : throm_name_jacsset ∈ r.entries)
    (hlen : r.entries.length ≤ r.number_of_compounds.length) :
    ∃ wi ji,
      correctionEvents (mainRun u root ext lt af).trace = [(wi, ji)] ∧
      r.entries[wi]? = some throm_name_waterset ∧
      (∀ m, wi < m → r.entries[m]? ≠ some throm_name_waterset) ∧
      r.entries[ji]? = some throm_name_jacsset ∧
      (∀ m, ji < m → r.entries[m]? ≠ some throm_name_jacsset) := by
  obtain ⟨wi, ji, hwi, hji, hscan, hwlt, hjlt, hmain⟩ :=
    successCore u root ext lt af files r hext hfiles hr hw hj hlen
  have htr := successTrace u root ext lt af files r wi ji hmain
  refine ⟨wi, ji, ?_, lastOcc_getElem _ _ _ hwi, lastOcc_last _ _ _ hwi,
    lastOcc_getElem _ _ _ hji, lastOcc_last _ _ _ hji⟩
  rw [htr, correctionEvents_cons_start, correctionEvents_append,
    correctionEvents_latexSection]
  rfl

/-- Closed witness for mainRun_last_occurrence at a concrete input with a
duplicated data-set name. -/
theorem mainRun_last_occurrence_w :
    (ExtArg.csv = ExtArg.fmp ∨ ExtArg.csv = ExtArg.csv) ∧
    collectFiles "up" rootW (ExtArg.toStr ExtArg.csv) = filesCsvW ∧
    parsedResults ExtArg.csv afDup filesCsvW = rDup ∧
    throm_name_waterset ∈ rDup.entries ∧
    throm_name_jacsset ∈ rDup.entries ∧
    rDup.entries.length ≤ rDup.number_of_compounds.length ∧
    (∃ wi ji,
      correctionEvents (mainRun "up" rootW ExtArg.csv false afDup).trace = [(wi, ji)] ∧
      rDup.entries[wi]? = some throm_name_waterset ∧
      (∀ m, wi < m → rDup.entries[m]? ≠ some throm_name_waterset) ∧
      rDup.entries[ji]? = some throm_name_jacsset ∧
      (∀ m, ji < m → rDup.entries[m]? ≠ some throm_name_jacsset)) :=
  ⟨Or.inr rfl, rfl, rfl, by decide, by decide, by decide,
    mainRun_last_occurrence "up" rootW ExtArg.csv false afDup filesCsvW rDup
      (Or.inr rfl) rfl rfl (by decide) (by decide) (by decide)⟩

/-- C3: when at least one of the two thrombin data-set names is missing
from the parser's `entries`, main raises an uncaught NameError at the guard
of line 94 (the corresponding index variable was never bound), so the run
produces no correction, no summary call and no printed line at all. -/
theorem mainRun_missing_dataset (u : String) (root : List FSNode) (ext : ExtArg)
    (lt : Bool) (af : AnalysisFunctions) (files : List String) (r : FepResults)
    (hext : ext = ExtArg.fmp ∨ ext = ExtArg.csv)
    (hfiles : collectFiles u root (ExtArg.toStr ext) = files)
    (hr : parsedResults ext af files = r)
    (hmiss : throm_name_waterset ∉ r.entries ∨ throm_name_jacsset ∉ r.entries) :
    ∃ v, mainRun u root ext lt af =
        ⟨[Event.collect files, parseEvent ext files],
         some (PyErr.nameError v), root⟩ ∧
      (v = "throm_name_waterset_ind" ∨ v = "throm_name_jacsset_ind") ∧
      summarizedArgs (mainRun u root ext lt af).trace = [] ∧
      correctionEvents (mainRun u root ext lt af).trace = [] ∧
      printedLines (mainRun u root ext lt af).trace = [] := by
  by_cases hw : throm_name_waterset ∈ r.entries
  · have hj : throm_name_jacsset ∉ r.entries := by
      rcases hmiss with h | h
      · exact absurd hw h
      · exact h
    obtain ⟨wi, hwi⟩ := exists_lastOcc _ _ hw
    have hscan : scanIndices r.entries = (some wi, none) := by
      rw [scanIndices_eq, hwi, (lastOcc_eq_none _ _).mpr hj]
    have hmain : mainRun u root ext lt af =
        ⟨[Event.collect files, parseEvent ext files],
         some (PyErr.nameError "throm_name_jacsset_ind"), root⟩ := by
      rw [mainRun_valid u root ext lt af hext, hfiles, hr,
        afterParse_err_j u root ext lt _ r wi hscan]
    refine ⟨"throm_name_jacsset_ind", hmain, Or.inr rfl, ?_, ?_, ?_⟩
    · rw [hmain]
      exact summarizedArgs_cons_start ext files []
    · rw [hmain]
      exact correctionEvents_cons_start ext files []
    · rw [hmain]
      exact printedLines_cons_start ext files []
  · have hscan : scanIndices r.entries =
        (none, lastOcc throm_name_jacsset r.entries) := by
      rw [scanIndices_eq, (lastOcc_eq_none _ _).mpr hw]
    have hmain : mainRun u root ext lt af =
        ⟨[Event.collect files, parseEvent ext files],
         some (PyErr.nameError "throm_name_waterset_ind"), root⟩ := by
      rw [mainRun_valid u root ext lt af hext, hfiles, hr,
        afterParse_err_w u root ext lt _ r _ hscan]
    refine ⟨"throm_name_waterset_ind", hmain, Or.inl rfl, ?_, ?_, ?_⟩
    · rw [hmain]
      exact summarizedArgs_cons_start ext files []
    · rw [hmain]
      exact correctionEvents_cons_start ext files []
    · rw [hmain]
      exact printedLines_cons_start ext files []

/-- Closed witness for mainRun_missing_dataset at a concrete input. -/
theorem mainRun_missing_dataset_w :
    (ExtArg.csv = ExtArg.fmp ∨ ExtArg.csv = ExtArg.csv) ∧
    collectFiles "up" rootW (ExtArg.toStr ExtArg.csv) = filesCsvW ∧
    parsedResults ExtArg.csv afW filesCsvW = rCsvW ∧
    (throm_name_waterset ∉ rCsvW.entries ∨ throm_name_jacsset ∉ rCsvW.entries) ∧
    (∃ v, mainRun "up" rootW ExtArg.csv false afW =
        ⟨[Event.collect filesCsvW, parseEvent ExtArg.csv filesCsvW],
         some (PyErr.nameError v), rootW⟩ ∧
      (v = "throm_name_waterset_ind" ∨ v = "throm_name_jacsset_ind") ∧
      summarizedArgs (mainRun "up" rootW ExtArg.csv false afW).trace = [] ∧
      correctionEvents (mainRun "up" rootW ExtArg.csv false afW).trace = [] ∧
      printedLines (mainRun "up" rootW ExtArg.csv false afW).trace = []) :=
  ⟨Or.inr rfl, rfl, rfl, Or.inl (by decide),
    mainRun_missing_dataset "up" rootW ExtArg.csv false afW filesCsvW rCsvW
      (Or.inr rfl) rfl rfl (Or.inl (by decide))⟩

/-- C2 (amended): the list of files passed to the parser consists exactly
of the glob-matched entries: names ending in the extension and not
beginning with a dot, lying in immediate subdirectories whose own name
does not begin with a dot; entries of the upper directory that are not
directories contribute no files, and deeper nesting is never reached. -/
theorem mainRun_collected_files (u : String) (root : List FSNode) (ext : ExtArg)
    (lt : Bool) (af : AnalysisFunctions)
    (hext : ext = ExtArg.fmp ∨ ext = ExtArg.csv) :
    parseCallArgs (mainRun u root ext lt af).trace =
      [collectFiles u root (ExtArg.toStr ext)] ∧
    (∀ p, p ∈ collectFiles u root (ExtArg.toStr ext) ↔
      ∃ n ch, FSNode.dir n ch ∈ root ∧ startsWithDot n = false ∧
        ∃ c ∈ ch, startsWithDot (FSNode.name c) = false ∧
          endsWithStr (ExtArg.toStr ext) (FSNode.name c) = true ∧
          p = u ++ "/" ++ n ++ "/" ++ FSNode.name c) := by
  constructor
  · rw [mainRun_valid u root ext lt af hext, parseCallArgs_afterParse]
    exact parseCallArgs_startTrace ext _
  · intro p
    rw [mem_collectFiles]
    constructor
    · rintro ⟨n, ch, hmem, hstar, c, hc, hmatch, hp⟩
      simp only [globStar, Bool.not_eq_true'] at hstar
      simp only [globStarSuffix, Bool.and_eq_true, Bool.not_eq_true'] at hmatch
      exact ⟨n, ch, hmem, hstar, c, hc, hmatch.1, hmatch.2, hp⟩
    · rintro ⟨n, ch, hmem, hstar, c, hc, h1, h2, hp⟩
      refine ⟨n, ch, hmem, ?_, c, hc, ?_, hp⟩
      · simp [globStar, hstar]
      · simp [globStarSuffix, h1, h2]

/-- C2 counterexample: a hidden immediate subdirectory holds a file whose
name the pattern suffix matches, yet the collection is empty, so the
collection is not "exactly the matching files in immediate subdirectories". -/
theorem collect_hidden_counterexample :
    collectFiles "up" hiddenRoot "fmp" = [] ∧
    FSNode.dir ".hidden" [FSNode.file "sys_out.fmp"] ∈ hiddenRoot ∧
    endsWithStr "fmp" "sys_out.fmp" = true ∧
    dirGlob "up/.hidden" [FSNode.file "sys_out.fmp"] "fmp" =
      ["up/.hidden/sys_out.fmp"] := by
  refine ⟨by decide, List.mem_singleton.mpr rfl, by decide, by decide⟩

/-- Closed witness for mainRun_collected_files at a concrete input. -/
theorem mainRun_collected_files_w :
    (ExtArg.fmp = ExtArg.fmp ∨ ExtArg.fmp = ExtArg.csv) ∧
    (parseCallArgs (mainRun "up" rootW ExtArg.fmp false afW).trace =
      [collectFiles "up" rootW (ExtArg.toStr ExtArg.fmp)] ∧
    (∀ p, p ∈ collectFiles "up" rootW (ExtArg.toStr ExtArg.fmp) ↔
      ∃ n ch, FSNode.dir n ch ∈ rootW ∧ startsWithDot n = false ∧
        ∃ c ∈ ch, startsWithDot (FSNode.name c) = false ∧
          endsWithStr (ExtArg.toStr ExtArg.fmp) (FSNode.name c) = true ∧
          p = "up" ++ "/" ++ n ++ "/" ++ FSNode.name c)) :=
  ⟨Or.inl rfl,
    mainRun_collected_files "up" rootW ExtArg.fmp false afW (Or.inl rfl)⟩

/-- C7 (amended): in the latex branch, every non-hidden immediate
subdirectory with at least one matching file has its path printed and
`print_latex_table` called on exactly its matching files, in directory
order; immediate subdirectories without matching files, plain files and
hidden entries contribute no printed path and no table call. -/
theorem mainRun_latex_blocks (u : String) (root : List FSNode)
    (af : AnalysisFunctions) (files : List String) (r : FepResults)
    (hfiles : collectFiles u root "fmp" = files)
    (hr : parsedResults ExtArg.fmp af files = r)
    (hw : throm_name_waterset ∈ r.entries)
    (hj : throm_name_jacsset ∈ r.entries)
    (hlen : r.entries.length ≤ r.number_of_compounds.length) :
    ∃ wi ji,
      scanIndices r.entries = (some wi, some ji) ∧
      (mainRun u root ExtArg.fmp true af).trace =
        [Event.collect files, Event.parseFmpCall files, Event.correction wi ji,
         Event.printLine "FEP+ benchmark summary",
         Event.printLine "-----------------------",
         Event.summarizeCall (correctedR r wi ji),
         Event.printLine "",
         Event.printLine "Individual set summaries",
         Event.printLine "------------------------"]
          ++ ((topGlob root).filter
                (fun nd => decide (nodeGlob u "fmp" nd ≠ []))).flatMap
               (fun nd => latexBlockFor (u ++ "/" ++ nd.name) (nodeGlob u "fmp" nd)) ∧
      latexCallArgs (mainRun u root ExtArg.fmp true af).trace =
        ((topGlob root).filter
           (fun nd => decide (nodeGlob u "fmp" nd ≠ []))).map (nodeGlob u "fmp") := by
  obtain ⟨wi, ji, hwi, hji, hscan, hwlt, hjlt, hmain⟩ :=
    successCore u root ExtArg.fmp true af files r (Or.inl rfl) hfiles hr hw hj hlen
  have htr := successTrace u root ExtArg.fmp true af files r wi ji hmain
  refine ⟨wi, ji, hscan, ?_, ?_⟩
  · rw [htr, latexSection_on, latexLoop_eq]
    rfl
  · rw [htr, latexCallArgs_cons_start, latexCallArgs_append, latexSection_on,
      latexCallArgs_append, latexCallArgs_latexLoop]
    rfl

/-- C7 counterexample: a hidden subdirectory holding a matching file gets
no printed path and no `print_latex_table` call in the latex branch. -/
theorem latex_hidden_counterexample :
    endsWithStr "fmp" "sys_out.fmp" = true ∧
    dirGlob "up/.hidden" [FSNode.file "sys_out.fmp"] "fmp" =
      ["up/.hidden/sys_out.fmp"] ∧
    latexCallArgs (mainRun "up" hiddenRoot ExtArg.fmp true afW).trace = [] ∧
    Event.printLine "up/.hidden" ∉ (mainRun "up" hiddenRoot ExtArg.fmp true afW).trace :=
  ⟨by decide, by decide, by decide, by decide⟩

/-- Closed witness for mainRun_latex_blocks at a concrete input. -/
theorem mainRun_latex_blocks_w :
    collectFiles "up" rootW "fmp" = filesW ∧
    parsedResults ExtArg.fmp afW filesW = rW ∧
    throm_name_waterset ∈ rW.entries ∧
    throm_name_jacsset ∈ rW.entries ∧
    rW.entries.length ≤ rW.number_of_compounds.length ∧
    (∃ wi ji,
      scanIndices rW.entries = (some wi, some ji) ∧
      (mainRun "up" rootW ExtArg.fmp true afW).trace =
        [Event.collect filesW, Event.parseFmpCall filesW, Event.correction wi ji,
         Event.printLine "FEP+ benchmark summary",
         Event.printLine "-----------------------",
         Event.summarizeCall (correctedR rW wi ji),
         Event.printLine "",
         Event.printLine "Individual set summaries",
         Event.printLine "------------------------"]
          ++ ((topGlob rootW).filter
                (fun nd => decide (nodeGlob "up" "fmp" nd ≠ []))).flatMap
               (fun nd => latexBlockFor ("up" ++ "/" ++ nd.name) (nodeGlob "up" "fmp" nd)) ∧
      latexCallArgs (mainRun "up" rootW ExtArg.fmp true afW).trace =
        ((topGlob rootW).filter
           (fun nd => decide (nodeGlob "up" "fmp" nd ≠ []))).map (nodeGlob "up" "fmp")) :=
  ⟨rfl, rfl, by decide, by decide, by decide,
    mainRun_latex_blocks "up" rootW afW filesW rW
      rfl rfl (by decide) (by decide) (by decide)⟩

/-- C6: the latex-table section runs if and only if both the latex_tables
flag is set and the extension is fmp; with the flag set and the csv
extension the run instead prints the single notice line about FMP files
and makes no `print_latex_table` call. -/
theorem mainRun_latex_flag (u : String) (root : List FSNode) (ext : ExtArg)
    (lt : Bool) (af : AnalysisFunctions) (files : List String) (r : FepResults)
    (hext : ext = ExtArg.fmp ∨ ext = ExtArg.csv)
    (hfiles : collectFiles u root (ExtArg.toStr ext) = files)
    (hr : parsedResults ext af files = r)
    (hw : throm_name_waterset ∈ r.entries)
    (hj : throm_name_jacsset ∈ r.entries)
    (hlen : r.entries.length ≤ r.number_of_compounds.length) :
    (("Individual set summaries" ∈ printedLines (mainRun u root ext lt af).trace) ↔
      (lt = true ∧ ext = ExtArg.fmp)) ∧
    (lt = true → ext = ExtArg.csv →
      (printedLines (mainRun u root ext lt af).trace =
         ["FEP+ benchmark summary", "-----------------------", "",
          "Latex summary tables can only printed for FMP results files."] ∧
       latexCallArgs (mainRun u root ext lt af).trace = [])) := by
  obtain ⟨wi, ji, hwi, hji, hscan, hwlt, hjlt, hmain⟩ :=
    successCore u root ext lt af files r hext hfiles hr hw hj hlen
  have htr := successTrace u root ext lt af files r wi ji hmain
  have hpl : printedLines (mainRun u root ext lt af).trace =
      ["FEP+ benchmark summary", "-----------------------", ""]
        ++ printedLines (latexSection u root ext lt) := by
    rw [htr, printedLines_cons_start, printedLines_append]
    rfl
  have hlc : latexCallArgs (mainRun u root ext lt af).trace =
      latexCallArgs (latexSection u root ext lt) := by
    rw [htr, latexCallArgs_cons_start, latexCallArgs_append]
    rfl
  rcases hext with h | h <;> subst h
  · refine ⟨?_, ?_⟩
    · cases lt with
      | true =>
          refine ⟨fun _ => ⟨rfl, rfl⟩, fun _ => ?_⟩
          rw [hpl, latexSection_on, printedLines_append]
          simp [printedLines]
      | false =>
          rw [hpl, latexSection_off]
          constructor
          · intro hmem
            simp [printedLines] at hmem
          · rintro ⟨hlt, _⟩
            exact absurd hlt (by simp)
    · intro _ hcsv
      exact absurd hcsv (by simp)
  · refine ⟨?_, ?_⟩
    · cases lt with
      | true =>
          rw [hpl, latexSection_notice u root ExtArg.csv (by simp)]
          constructor
          · intro hmem
            simp [printedLines] at hmem
          · rintro ⟨_, hfmp⟩
            exact absurd hfmp (by simp)
      | false =>
          rw [hpl, latexSection_off]
          constructor
          · intro hmem
            simp [printedLines] at hmem
          · rintro ⟨hlt, _⟩
            exact absurd hlt (by simp)
    · intro hlt hcsv
      cases lt with
      | true =>
          refine ⟨?_, ?_⟩
          · rw [hpl, latexSection_notice u root ExtArg.csv (by simp)]
            rfl
          · rw [hlc, latexSection_notice u root ExtArg.csv (by simp)]
            rfl
      | false => exact absurd hlt (by simp)

/-- Closed witness for mainRun_latex_flag at a concrete input with the
flag set and the csv extension. -/
theorem mainRun_latex_flag_w :
    (ExtArg.csv = ExtArg.fmp ∨ ExtArg.csv = ExtArg.csv) ∧
    collectFiles "up" rootW (ExtArg.toStr ExtArg.csv) = filesCsvW ∧
    parsedResults ExtArg.csv afDup filesCsvW = rDup ∧
    throm_name_waterset ∈ rDup.entries ∧
    throm_name_jacsset ∈ rDup.entries ∧
    rDup.entries.length ≤ rDup.number_of_compounds.length ∧
    ((("Individual set summaries" ∈
        printedLines (mainRun "up" rootW ExtArg.csv true afDup).trace) ↔
      (true = true ∧ ExtArg.csv = ExtArg.fmp)) ∧
    (true = true → ExtArg.csv = ExtArg.csv →
      (printedLines (mainRun "up" rootW ExtArg.csv true afDup).trace =
         ["FEP+ benchmark summary", "-----------------------", "",
          "Latex summary tables can only printed for FMP results files."] ∧
       latexCallArgs (mainRun "up" rootW ExtArg.csv true afDup).trace = []))) :=
  ⟨Or.inr rfl, rfl, rfl, by decide, by decide, by decide,
    mainRun_latex_flag "up" rootW ExtArg.csv true afDup filesCsvW rDup
      (Or.inr rfl) rfl rfl (by decide) (by decide) (by decide)⟩

end FepBenchmark
